import Mathlib

/-!
# explorer-backend: collector, record mapper and smesher storage

A shallow embedding of

* `collector/mesh.go`   : `getNetworkInfo`, `layersPump`, `syncMissingLayers`, `malfeasancePump`
* `model/tx.go`         : `NewTransaction`
* `storage/smesher.go`  : `SaveSmesher`, `SaveSmesherQuery`, `UpdateSmesher`, `UpdateSmesherQuery`

Effectful code is embedded as a function from the answers of its collaborators (RPC
clients, the Listener, the store) to the trace of calls it makes and the value it returns.
-/

namespace Collector

/-- Go `error` values that reach the collector. `EOF` is `io.EOF`. -/
inductive Err where
  | EOF
  | other (msg : String)
  deriving DecidableEq, Repr

/-- A `pb.Layer` record: `Number.Number` and the remainder of the record. -/
structure Layer where
  Number : Nat
  body : Nat
  deriving DecidableEq, Repr

/-- Calls made by the collector on its collaborators, in program order. -/
inductive Event where
  | notify (v : Int)
  | rpc (name : String)
  | layerStream
  | malfeasanceStream
  | recvLayer (l : Layer)
  | recvProof (p : Nat)
  | recvFail (err : Err)
  | status
  | getLastLayer
  | layersQuery (startLayer endLayer : Nat)
  | onLayer (l : Layer)
  | onMalfeasanceProof (p : Nat)
  | onNetworkInfo (genesisId : String) (genesisTime epochNumLayers maxTps layerDuration
      postUnitSize : Nat)
  | onAccount (a : Nat)
  deriving DecidableEq, Repr

/-- The layers handed to `Listener.OnLayer`, in call order. -/
def onLayerCalls : List Event → List Layer
  | [] => []
  | .onLayer l :: es => l :: onLayerCalls es
  | _ :: es => onLayerCalls es

/-- The `(StartLayer, EndLayer)` pairs of the `LayersQuery` calls, in call order. -/
def layersQueryCalls : List Event → List (Nat × Nat)
  | [] => []
  | .layersQuery s e :: es => (s, e) :: layersQueryCalls es
  | _ :: es => layersQueryCalls es

/-- The values sent on the `notify` channel, in send order. -/
def notifications : List Event → List Int
  | [] => []
  | .notify v :: es => v :: notifications es
  | _ :: es => notifications es

/-- The `OnNetworkInfo` and `OnAccount` calls, in call order. -/
def networkInfoCalls : List Event → List Event
  | [] => []
  | .onNetworkInfo a b c d e f :: es => .onNetworkInfo a b c d e f :: networkInfoCalls es
  | .onAccount a :: es => .onAccount a :: networkInfoCalls es
  | _ :: es => networkInfoCalls es

/-! ## `syncMissingLayers` -/

/-- How far a run has come: still inside the loop when the fuel ran out, or returned
with Go's `error` result (`none` is `nil`). -/
inductive Outcome where
  | running
  | returned (err : Option Err)
  deriving DecidableEq, Repr

/-- The `for i := lastLayer + 1; i <= syncedLayerNum; i++` loop of `syncMissingLayers`.
`w` is the bit width of the layer-number type (`i++` wraps modulo `2 ^ w`), `fuel` bounds
the number of loop tests. The result is the trace of calls made so far and the outcome. -/
def syncLoop (w : Nat) (LayersQuery : Nat → Nat → Except Err (List Layer))
    (syncedLayerNum : Nat) : Nat → Nat → List Event × Outcome
  | 0, _ => ([], .running)
  | fuel + 1, i =>
    if i ≤ syncedLayerNum then
      match LayersQuery i i with
      | .error err => ([.layersQuery i i], .returned (some err))
      | .ok layers =>
        let r := syncLoop w LayersQuery syncedLayerNum fuel ((i + 1) % 2 ^ w)
        (.layersQuery i i :: (layers.map .onLayer ++ r.1), r.2)
    else ([], .returned none)

/-- `Collector.syncMissingLayers`. `Status` is the answer of `nodeClient.Status` (the
synced layer number), `GetLastLayer` the checkpoint reported by the Listener,
`LayersQuery s e` the answer of the range query with `StartLayer = s`, `EndLayer = e`. -/
def syncMissingLayers (w : Nat) (Status : Except Err Nat) (GetLastLayer : Nat)
    (LayersQuery : Nat → Nat → Except Err (List Layer)) (fuel : Nat) :
    List Event × Outcome :=
  match Status with
  | .error err => ([.status], .returned (some err))
  | .ok syncedLayerNum =>
    let lastLayer := GetLastLayer
    if syncedLayerNum = lastLayer then ([.status, .getLastLayer], .returned none)
    else
      let r := syncLoop w LayersQuery syncedLayerNum fuel ((lastLayer + 1) % 2 ^ w)
      (.status :: .getLastLayer :: r.1, r.2)

/-- The calls the gap-closure contract prescribes for the layers `i, i+1, ..., i+n-1`:
one point query per layer, each followed by the `OnLayer` calls for what it returned. -/
def replay (layersOf : Nat → List Layer) : Nat → Nat → List Event
  | _, 0 => []
  | i, n + 1 => .layersQuery i i :: ((layersOf i).map .onLayer ++ replay layersOf (i + 1) n)

/-! ## `layersPump`, `malfeasancePump` -/

/-- What a subscription delivers in a run of a pump that returns: the records of the
`Recv` calls that succeeded, then the error of the `Recv` call that failed (`io.EOF` for a
graceful end of stream). -/
structure Stream (α : Type) where
  records : List α
  terminal : Err

/-- The `for { ... }` loop of `layersPump`. -/
def layersPumpLoop (syncFromLayerFlag : Nat) (terminal : Err) : List Layer → List Event × Err
  | [] => ([.recvFail terminal], terminal)
  | layer :: rest =>
    let r := layersPumpLoop syncFromLayerFlag terminal rest
    if layer.Number < syncFromLayerFlag then (.recvLayer layer :: r.1, r.2)
    else (.recvLayer layer :: .onLayer layer :: r.1, r.2)

/-- `Collector.layersPump`. `LayerStream` is the answer of `meshClient.LayerStream`; the
deferred send of `-streamType_mesh_Layer` runs after the body, before the return. -/
def layersPump (streamType_mesh_Layer : Int) (syncFromLayerFlag : Nat)
    (LayerStream : Except Err (Stream Layer)) : List Event × Err :=
  let body : List Event × Err :=
    match LayerStream with
    | .error err => ([.layerStream], err)
    | .ok stream =>
      let r := layersPumpLoop syncFromLayerFlag stream.terminal stream.records
      (.layerStream :: r.1, r.2)
  (.notify streamType_mesh_Layer :: (body.1 ++ [.notify (-streamType_mesh_Layer)]), body.2)

/-- The `for { ... }` loop of `malfeasancePump`. -/
def malfeasancePumpLoop (terminal : Err) : List Nat → List Event × Err
  | [] => ([.recvFail terminal], terminal)
  | proof :: rest =>
    let r := malfeasancePumpLoop terminal rest
    (.recvProof proof :: .onMalfeasanceProof proof :: r.1, r.2)

/-- `Collector.malfeasancePump`. -/
def malfeasancePump (streamType_mesh_Malfeasance : Int)
    (MalfeasanceStream : Except Err (Stream Nat)) : List Event × Err :=
  let body : List Event × Err :=
    match MalfeasanceStream with
    | .error err => ([.malfeasanceStream], err)
    | .ok stream =>
      let r := malfeasancePumpLoop stream.terminal stream.records
      (.malfeasanceStream :: r.1, r.2)
  (.notify streamType_mesh_Malfeasance ::
    (body.1 ++ [.notify (-streamType_mesh_Malfeasance)]), body.2)

/-- The calls the pump contract prescribes for the received records: each record is
received, then forwarded when it is not below the floor, before the next `Recv`. -/
def forwardInOrder (floor : Nat) : List Layer → List Event
  | [] => []
  | r :: rs =>
    (if floor ≤ r.Number then [Event.recvLayer r, Event.onLayer r] else [Event.recvLayer r])
      ++ forwardInOrder floor rs

/-! ## `getNetworkInfo` -/

/-- Answers of the seven one-shot calls of `getNetworkInfo`. A response carries the value
its getter chain reads; `PostConfig` carries `(BitsPerLabel, LabelsPerUnit)`. -/
structure NetworkRpc where
  GenesisTime : Except Err Nat
  GenesisID : Except Err (List Nat)
  EpochNumLayers : Except Err Nat
  MaxTransactionsPerSecond : Except Err Nat
  LayerDuration : Except Err Nat
  Accounts : Except Err (List Nat)
  PostConfig : Except Err (Nat × Nat)

/-- `Collector.getNetworkInfo`. `BytesToHex` is `utils.BytesToHex`. After a failed
`GenesisID` call `genesisId` is `nil` and `genesisId.GetGenesisId()` is the empty slice. -/
def getNetworkInfo (BytesToHex : List Nat → String) (c : NetworkRpc) :
    List Event × Option Err :=
  match c.GenesisTime with
  | .error err => ([.rpc "GenesisTime"], some err)
  | .ok genesisTime =>
    let genesisId : List Nat :=
      match c.GenesisID with
      | .error _ => []
      | .ok id => id
    match c.EpochNumLayers with
    | .error err => ([.rpc "GenesisTime", .rpc "GenesisID", .rpc "EpochNumLayers"], some err)
    | .ok epochNumLayers =>
      match c.MaxTransactionsPerSecond with
      | .error err =>
        ([.rpc "GenesisTime", .rpc "GenesisID", .rpc "EpochNumLayers",
          .rpc "MaxTransactionsPerSecond"], some err)
      | .ok maxTransactionsPerSecond =>
        match c.LayerDuration with
        | .error err =>
          ([.rpc "GenesisTime", .rpc "GenesisID", .rpc "EpochNumLayers",
            .rpc "MaxTransactionsPerSecond", .rpc "LayerDuration"], some err)
        | .ok layerDuration =>
          match c.Accounts with
          | .error err =>
            ([.rpc "GenesisTime", .rpc "GenesisID", .rpc "EpochNumLayers",
              .rpc "MaxTransactionsPerSecond", .rpc "LayerDuration", .rpc "Accounts"],
              some err)
          | .ok accounts =>
            match c.PostConfig with
            | .error err =>
              ([.rpc "GenesisTime", .rpc "GenesisID", .rpc "EpochNumLayers",
                .rpc "MaxTransactionsPerSecond", .rpc "LayerDuration", .rpc "Accounts",
                .rpc "PostConfig"], some err)
            | .ok res =>
              ([.rpc "GenesisTime", .rpc "GenesisID", .rpc "EpochNumLayers",
                .rpc "MaxTransactionsPerSecond", .rpc "LayerDuration", .rpc "Accounts",
                .rpc "PostConfig",
                .onNetworkInfo (BytesToHex genesisId) genesisTime epochNumLayers
                  maxTransactionsPerSecond layerDuration
                  (((res.1 % 2 ^ 64) * (res.2 % 2 ^ 64)) % 2 ^ 64 / 8)]
                ++ accounts.map .onAccount, none)

end Collector

/-! ## `model/tx.go` -/

namespace Model

/-- The domain `Transaction` of `model/tx.go` (`Type_` is its field `Type`). -/
structure Transaction where
  Id : String := ""
  Layer : Nat := 0
  Block : String := ""
  Index : Nat := 0
  Result : Int := 0
  GasProvided : Nat := 0
  GasPrice : Nat := 0
  GasUsed : Nat := 0
  Fee : Nat := 0
  Amount : Nat := 0
  Counter : Nat := 0
  Type_ : Int := 0
  Scheme : Int := 0
  Signature : String := ""
  PublicKey : String := ""
  Sender : String := ""
  Receiver : String := ""
  SvmData : String := ""
  deriving DecidableEq, Repr

/-- Wire `CoinTransferTransaction`: the receiver's address bytes (`none` is a nil message). -/
structure CoinTransferTransaction where
  Receiver : Option (List Nat)
  deriving DecidableEq, Repr

/-- Wire `SmartContractTransaction`. -/
structure SmartContractTransaction where
  Type_ : Int
  Data : String
  AccountId : Option (List Nat)
  deriving DecidableEq, Repr

/-- Wire `GasOffered`. -/
structure GasOffered where
  GasProvided : Nat
  GasPrice : Nat
  deriving DecidableEq, Repr

/-- Wire `Signature`. -/
structure PbSignature where
  Scheme : Int
  Signature : List Nat
  PublicKey : List Nat
  deriving DecidableEq, Repr

/-- Wire `pb.Transaction` as the getters of `NewTransaction` read it: every sub-message
may be nil (`none`). `CoinTransfer` and `SmartContract` are the two variants the record
may carry, each `none` when the variant is not present. -/
structure PbTransaction where
  Id : Option (List Nat)
  CoinTransfer : Option CoinTransferTransaction
  SmartContract : Option SmartContractTransaction
  Sender : Option (List Nat)
  GasOffered : Option GasOffered
  Amount : Option Nat
  Counter : Nat
  Signature : Option PbSignature
  deriving DecidableEq, Repr

/-- The fields `NewTransaction` sets in its struct literal, before the variant dispatch. -/
def NewTransaction.base (BytesToHex BytesToAddressString : List Nat → String)
    (inp : PbTransaction) (layer : Nat) (blockId : String) : Transaction :=
  let gas := inp.GasOffered
  let sig := inp.Signature
  { Id := BytesToHex (inp.Id.getD [])
    Sender := BytesToAddressString (inp.Sender.getD [])
    Amount := inp.Amount.getD 0
    Counter := inp.Counter
    Layer := layer
    Block := blockId
    GasProvided := (gas.map (·.GasProvided)).getD 0
    GasPrice := (gas.map (·.GasPrice)).getD 0
    Scheme := (sig.map (·.Scheme)).getD 0
    Signature := BytesToHex ((sig.map (·.Signature)).getD [])
    PublicKey := BytesToHex ((sig.map (·.PublicKey)).getD []) }

/-- The value the variant dispatch of `NewTransaction` probes. The source calls
`t.GetCoinTransfer()` and `t.GetSmartContract()` on an identifier `t` that is not the
argument `in` and is declared nowhere in `model/tx.go`; it is a parameter here, carrying
what the two getters return (`none` is nil). -/
structure Probed where
  CoinTransfer : Option CoinTransferTransaction
  SmartContract : Option SmartContractTransaction
  deriving DecidableEq, Repr

/-- `NewTransaction` of `model/tx.go`. `BytesToHex` and `BytesToAddressString` are the
helpers of package `utils`; `t` is the identifier the dispatch probes, `inp` the argument
`in`. The three assignments of the dispatch are read as written, apart from the comma that
ends each of them in the source. -/
def NewTransaction (BytesToHex BytesToAddressString : List Nat → String) (t : Probed)
    (inp : PbTransaction) (layer : Nat) (blockId : String) : Transaction :=
  let tx := NewTransaction.base BytesToHex BytesToAddressString inp layer blockId
  match t.CoinTransfer with
  | some data => { tx with Receiver := BytesToAddressString (data.Receiver.getD []) }
  | none =>
    match t.SmartContract with
    | some data =>
      { tx with
        Type_ := data.Type_
        SvmData := data.Data
        Receiver := BytesToAddressString (data.AccountId.getD []) }
    | none => tx

/-- A wire transaction carrying the coin-transfer variant, receiver bytes `[0xAA]`. -/
def coinTransferRecord : PbTransaction :=
  ⟨some [1], some ⟨some [0xAA]⟩, none, some [2], none, some 5, 1, none⟩

/-- A wire transaction carrying the smart-contract variant, type `2`, payload `"abc"`. -/
def smartContractRecord : PbTransaction :=
  ⟨some [1], none, some ⟨2, "abc", some [3]⟩, some [2], none, some 5, 1, none⟩

/-- A wire transaction with neither variant present. -/
def emptyVariantRecord : PbTransaction :=
  ⟨some [1], none, none, some [2], none, some 5, 1, none⟩

/-- The outcomes the rejection contract rules out for a malformed record: a returned
`Transaction` whose `Receiver`, `Type` and `SvmData` are at their defaults, or populated
from the coin-transfer variant alone, or from the smart-contract variant alone. -/
def partiallyMapped (BytesToAddressString : List Nat → String) (t : Probed)
    (r : Transaction) : Prop :=
  (r.Receiver = "" ∧ r.Type_ = 0 ∧ r.SvmData = "") ∨
  (∃ ct, t.CoinTransfer = some ct ∧
    r.Receiver = BytesToAddressString (ct.Receiver.getD []) ∧ r.Type_ = 0 ∧ r.SvmData = "") ∨
  (∃ sc, t.SmartContract = some sc ∧ r.Type_ = sc.Type_ ∧ r.SvmData = sc.Data ∧
    r.Receiver = BytesToAddressString (sc.AccountId.getD []))

end Model

/-! ## `storage/smesher.go` -/

namespace Storage

/-- A BSON value stored by the smesher code: strings, integers of any width, and doubles
(kept as their bit pattern; they are only stored, never computed with). -/
inductive Value where
  | str (s : String)
  | int (n : Int)
  | double (bits : Nat)
  deriving DecidableEq, Repr

/-- A `bson.D`: an ordered list of key/value elements. -/
abbrev Doc := List (String × Value)

/-- A collection: its documents in natural order. The driver-generated `_id` is left out. -/
abbrev Collection := List Doc

/-- `filter` is a conjunction of field equalities; a document without the field does not
match. -/
def matchesFilter (filter : Doc) (d : Doc) : Bool :=
  filter.all fun kv => d.lookup kv.1 == some kv.2

/-- `$set` of one field: overwrite it in place, or append it when the document lacks it. -/
def setField (k : String) (v : Value) : Doc → Doc
  | [] => [(k, v)]
  | kv :: rest => if kv.1 = k then (k, v) :: rest else kv :: setField k v rest

/-- Apply a `$set` document to a document, field by field. -/
def applySet (set : Doc) (d : Doc) : Doc :=
  set.foldl (fun acc kv => setField kv.1 kv.2 acc) d

/-- Update the first document matching `filter`; `none` when no document matches. -/
def updateFirst (filter set : Doc) : Collection → Option Collection
  | [] => none
  | d :: rest =>
    if matchesFilter filter d then some (applySet set d :: rest)
    else (updateFirst filter set rest).map (d :: ·)

/-- The unique index on `key` holds: no two documents carry the same value (a missing
field counts as one value). -/
def uniqueIndex (key : String) (c : Collection) : Prop :=
  (c.map fun d => d.lookup key).Nodup

instance (key : String) (c : Collection) : Decidable (uniqueIndex key c) := by
  unfold uniqueIndex; infer_instance

/-- MongoDB `UpdateOne(filter, {$set: set}, opts)` on a collection with a unique index on
`indexKey`: the first matching document is updated; with no match and `upsert` set, the
document made of the filter's fields with `$set` applied is inserted; a write that would
break the unique index fails with a duplicate-key error and changes nothing. -/
def UpdateOne (indexKey : String) (c : Collection) (filter set : Doc)
    (upsert : Option Bool) : Except String Collection :=
  match updateFirst filter set c with
  | some c' => if uniqueIndex indexKey c' then .ok c' else .error "E11000 duplicate key error"
  | none =>
    if upsert = some true then
      if uniqueIndex indexKey (c ++ [applySet set filter]) then
        .ok (c ++ [applySet set filter])
      else .error "E11000 duplicate key error"
    else .ok c

/-- MongoDB `CountDocuments(filter)`. -/
def CountDocuments (c : Collection) (filter : Doc) : Nat :=
  (c.filter (matchesFilter filter)).length

/-- A `mongo.UpdateOneModel`: filter, the `$set` document of its update, and the upsert
flag (`none` when `SetUpsert` was not called, which the server treats as `false`). -/
structure UpdateOneModel where
  Filter : Doc
  Update : Doc
  Upsert : Option Bool
  deriving DecidableEq, Repr

/-- The three collections `storage/smesher.go` touches. `smeshers` has a unique index on
`id`, `coinbases` on `smesherId` (`InitSmeshersStorage`). -/
structure Store where
  smeshers : Collection
  coinbases : Collection
  activations : Collection
  deriving DecidableEq, Repr

/-- The invariant `InitSmeshersStorage` establishes. -/
def Store.indexed (s : Store) : Prop :=
  uniqueIndex "id" s.smeshers ∧ uniqueIndex "smesherId" s.coinbases

/-- A `model.Smesher`, with the field types `GetSmesher` reads. -/
structure Smesher where
  Id : String
  Name : String
  Lon : Nat
  Lat : Nat
  CommitmentSize : Nat
  Coinbase : String
  AtxCount : Nat
  Timestamp : Nat
  deriving DecidableEq, Repr

/-- One `UpdateOne` call as issued: the collection and the arguments. -/
structure WriteCall where
  collection : String
  filter : Doc
  update : Doc
  upsert : Option Bool
  deriving DecidableEq, Repr

/-- The `UpdateOne` call that issues a write model on a collection. -/
def WriteCall.ofModel (collection : String) (m : UpdateOneModel) : WriteCall :=
  ⟨collection, m.Filter, m.Update, m.Upsert⟩

/-- The `$set` document written by `SaveSmesher` and by `SaveSmesherQuery`. -/
def saveSmesherSet (inp : Smesher) : Doc :=
  [("id", .str inp.Id), ("name", .str inp.Name), ("lon", .double inp.Lon),
   ("lat", .double inp.Lat), ("cSize", .int inp.CommitmentSize),
   ("coinbase", .str inp.Coinbase), ("atxcount", .int inp.AtxCount),
   ("timestamp", .int inp.Timestamp)]

/-- `Storage.SaveSmesher`: the new store, the write issued, and the returned error. -/
def SaveSmesher (s : Store) (inp : Smesher) : Store × List WriteCall × Option String :=
  let opts : Option Bool := some true
  let call : WriteCall := ⟨"smeshers", [("id", .str inp.Id)], saveSmesherSet inp, opts⟩
  match UpdateOne "id" s.smeshers [("id", .str inp.Id)] (saveSmesherSet inp) opts with
  | .error err => (s, [call], some ("error save smesher: " ++ err))
  | .ok c => ({ s with smeshers := c }, [call], none)

/-- `Storage.SaveSmesherQuery`. -/
def SaveSmesherQuery (inp : Smesher) : UpdateOneModel :=
  let filter : Doc := [("id", .str inp.Id)]
  let update : Doc := saveSmesherSet inp
  { Filter := filter, Update := update, Upsert := some true }

/-- `Storage.UpdateSmesher`: the new store, the writes issued, and the returned error. -/
def UpdateSmesher (s : Store) (smesher coinbase : String) (space timestamp : Nat) :
    Store × List WriteCall × Option String :=
  let opts : Option Bool := some true
  let filter : Doc := [("smesherId", .str smesher)]
  let call1 : WriteCall := ⟨"coinbases", filter, [("coinbase", .str coinbase)], opts⟩
  match UpdateOne "smesherId" s.coinbases filter [("coinbase", .str coinbase)] opts with
  | .error err => (s, [call1], some ("error insert smesher into coinbases: " ++ err))
  | .ok cb =>
    let s1 : Store := { s with coinbases := cb }
    let atxCount := CountDocuments s1.activations [("smesher", .str smesher)]
    let set2 : Doc :=
      [("cSize", .int space), ("coinbase", .str coinbase), ("atxcount", .int atxCount),
       ("timestamp", .int timestamp)]
    let call2 : WriteCall := ⟨"smeshers", [("id", .str smesher)], set2, none⟩
    match UpdateOne "id" s1.smeshers [("id", .str smesher)] set2 none with
    | .error err => (s1, [call1, call2], some err)
    | .ok sm => ({ s1 with smeshers := sm }, [call1, call2], none)

/-- `Storage.UpdateSmesherQuery`: the coinbase-mapping model and the smesher model. -/
def UpdateSmesherQuery (s : Store) (smesher coinbase : String) (space timestamp : Nat) :
    UpdateOneModel × UpdateOneModel :=
  let coinbaseFilter : Doc := [("smesherId", .str smesher)]
  let coinbaseUpdate : Doc := [("coinbase", .str coinbase)]
  let coinbaseModel : UpdateOneModel :=
    { Filter := coinbaseFilter, Update := coinbaseUpdate, Upsert := some true }
  let atxCount := CountDocuments s.activations [("smesher", .str smesher)]
  let smesherFilter : Doc := [("id", .str smesher)]
  let smesherUpdate : Doc :=
    [("cSize", .int space), ("coinbase", .str coinbase), ("atxcount", .int atxCount),
     ("timestamp", .int timestamp)]
  let smesherModel : UpdateOneModel :=
    { Filter := smesherFilter, Update := smesherUpdate, Upsert := none }
  (coinbaseModel, smesherModel)

/-- Apply one write model to a collection with a unique index on `indexKey`. -/
def applyModel (indexKey : String) (c : Collection) (m : UpdateOneModel) :
    Except String Collection :=
  UpdateOne indexKey c m.Filter m.Update m.Upsert

/-- Apply the two models of `UpdateSmesherQuery` in the order returned: the first to
`coinbases`, then the second to `smeshers`; the first failure stops the flush. -/
def applyInOrder (s : Store) (ms : UpdateOneModel × UpdateOneModel) : Store × Bool :=
  match applyModel "smesherId" s.coinbases ms.1 with
  | .error _ => (s, false)
  | .ok cb =>
    match applyModel "id" s.smeshers ms.2 with
    | .error _ => ({ s with coinbases := cb }, false)
    | .ok sm => ({ s with coinbases := cb, smeshers := sm }, true)

/-- The number of records of a collection whose field `key` is the string `v`. -/
def countWith (key v : String) (c : Collection) : Nat :=
  (c.filter fun d => d.lookup key == some (.str v)).length

/-- A store with one smesher record and no coinbase mapping yet. -/
def exampleStore : Store :=
  { smeshers := [[("id", .str "s1"), ("name", .str "n"), ("coinbase", .str "old")]]
    coinbases := []
    activations := [[("smesher", .str "s1")]] }

end Storage

/-! # Theorems -/

namespace Collector

/-! ## Projections of traces -/

theorem onLayerCalls_append (xs ys : List Event) :
    onLayerCalls (xs ++ ys) = onLayerCalls xs ++ onLayerCalls ys := by
  induction xs with
  | nil => rfl
  | cons x xs ih => cases x <;> simp [onLayerCalls, ih]

theorem onLayerCalls_map_onLayer (ls : List Layer) :
    onLayerCalls (ls.map Event.onLayer) = ls := by
  induction ls with
  | nil => rfl
  | cons l ls ih => simp [onLayerCalls, ih]

theorem layersQueryCalls_append (xs ys : List Event) :
    layersQueryCalls (xs ++ ys) = layersQueryCalls xs ++ layersQueryCalls ys := by
  induction xs with
  | nil => rfl
  | cons x xs ih => cases x <;> simp [layersQueryCalls, ih]

theorem layersQueryCalls_map_onLayer (ls : List Layer) :
    layersQueryCalls (ls.map Event.onLayer) = [] := by
  induction ls with
  | nil => rfl
  | cons l ls ih => simp [layersQueryCalls, ih]

theorem notifications_append (xs ys : List Event) :
    notifications (xs ++ ys) = notifications xs ++ notifications ys := by
  induction xs with
  | nil => rfl
  | cons x xs ih => cases x <;> simp [notifications, ih]

theorem onLayerCalls_replay (layersOf : Nat → List Layer) (n : Nat) :
    ∀ i, onLayerCalls (replay layersOf i n) = ((List.range' i n).map layersOf).flatten := by
  induction n with
  | zero => intro i; rfl
  | succ n ih =>
    intro i
    simp [replay, onLayerCalls, onLayerCalls_append, onLayerCalls_map_onLayer, ih,
      List.range'_succ]

theorem layersQueryCalls_replay (layersOf : Nat → List Layer) (n : Nat) :
    ∀ i, layersQueryCalls (replay layersOf i n) = (List.range' i n).map fun j => (j, j) := by
  induction n with
  | zero => intro i; rfl
  | succ n ih =>
    intro i
    simp [replay, layersQueryCalls, layersQueryCalls_append, layersQueryCalls_map_onLayer, ih,
      List.range'_succ]

/-! ## The reconciliation loop -/

/-- While the counter stays at or below the head and below the wrap-around point, `n`
successful point queries unfold the loop into the prescribed `replay` followed by the rest
of the loop. -/
theorem syncLoop_replay (w h : Nat) (q : Nat → Nat → Except Err (List Layer))
    (layersOf : Nat → List Layer) (n : Nat) :
    ∀ (i fuel : Nat), i + n ≤ h + 1 → i + n < 2 ^ w →
      (∀ j, i ≤ j → j < i + n → q j j = .ok (layersOf j)) →
      syncLoop w q h (fuel + n) i =
        (replay layersOf i n ++ (syncLoop w q h fuel (i + n)).1,
          (syncLoop w q h fuel (i + n)).2) := by
  induction n with
  | zero => intro i fuel _ _ _; simp [replay]
  | succ n ih =>
    intro i fuel hle hlt hok
    have hi : i ≤ h := by omega
    have hq : q i i = .ok (layersOf i) := hok i (Nat.le_refl i) (by omega)
    have hmod : (i + 1) % 2 ^ w = i + 1 := Nat.mod_eq_of_lt (by omega)
    have hrec := ih (i + 1) fuel (by omega) (by omega)
      (fun j h1 h2 => hok j (by omega) (by omega))
    have hfuel : fuel + (n + 1) = (fuel + n) + 1 := rfl
    rw [hfuel, syncLoop, if_pos hi, hq]
    simp only [hmod, hrec, replay]
    have : i + 1 + n = i + (n + 1) := by omega
    simp [this]

/-- Past the head the loop exits with `nil`. -/
theorem syncLoop_exit (w h : Nat) (q : Nat → Nat → Except Err (List Layer)) (i fuel : Nat)
    (hi : h < i) : syncLoop w q h (fuel + 1) i = ([], .returned none) := by
  rw [syncLoop, if_neg (by omega)]

/-- Gap closure below the wrap-around point: for `c ≤ h` with `h + 1` representable and
every point query for `c+1..h` succeeding, `syncMissingLayers` issues exactly the point
queries for `c+1, ..., h` in ascending order, forwards what each returned before the next
query, and returns `nil`. -/
theorem syncMissingLayers_gap_closure (w c h : Nat) (q : Nat → Nat → Except Err (List Layer))
    (layersOf : Nat → List Layer) (fuel : Nat) (hch : c ≤ h) (hw : h + 1 < 2 ^ w)
    (hok : ∀ j, c < j → j ≤ h → q j j = .ok (layersOf j)) :
    syncMissingLayers w (.ok h) c q (fuel + 1 + (h - c)) =
      (.status :: .getLastLayer :: replay layersOf (c + 1) (h - c), .returned none) := by
  unfold syncMissingLayers
  by_cases heq : h = c
  · subst heq; simp [replay]
  · have hmod : (c + 1) % 2 ^ w = c + 1 := Nat.mod_eq_of_lt (by omega)
    have hrep := syncLoop_replay w h q layersOf (h - c) (c + 1) (fuel + 1) (by omega)
      (by omega) (fun j h1 h2 => hok j (by omega) (by omega))
    have hend : c + 1 + (h - c) = h + 1 := by omega
    rw [hend, syncLoop_exit w h q (h + 1) fuel (by omega)] at hrep
    simp [heq, hmod, hrep]

/-- With the head at the largest `w`-bit value and every query succeeding, the loop is
still running after any number of loop tests: `i++` wraps to `0`, which is `≤` the head. -/
theorem syncLoop_max_head_running (w : Nat) (q : Nat → Nat → Except Err (List Layer))
    (hq : ∀ i, ∃ ls, q i i = .ok ls) :
    ∀ (fuel i : Nat), (syncLoop w q (2 ^ w - 1) fuel i).2 = .running ∨ 2 ^ w - 1 < i := by
  intro fuel
  induction fuel with
  | zero => intro i; left; rfl
  | succ fuel ih =>
    intro i
    by_cases hi : i ≤ 2 ^ w - 1
    · left
      obtain ⟨ls, hls⟩ := hq i
      rw [syncLoop, if_pos hi, hls]
      rcases ih ((i + 1) % 2 ^ w) with h | h
      · exact h
      · have hlt : (i + 1) % 2 ^ w < 2 ^ w := Nat.mod_lt _ (Nat.pos_pow_of_pos w (by decide))
        exact absurd (Nat.le_sub_one_of_lt hlt) (Nat.not_le.mpr h)
    · right; exact Nat.not_le.mp hi

/-- C1 (code at the failing input): checkpoint `4294967294`, head `4294967295` (the
largest 32-bit layer number), every point query succeeding with one layer. The contract
asks for exactly one query (layer `4294967295`) and a `nil` return; the code never
returns, and after the query for layer `4294967295` it goes on to query layers `0`, `1`,
... The same happens with 64-bit layer numbers at head `18446744073709551615`. -/
theorem syncMissingLayers_never_returns_at_max_head :
    (∀ fuel, (syncMissingLayers 32 (.ok 4294967295) 4294967294
        (fun i _ => .ok [⟨i, 0⟩]) fuel).2 = .running) ∧
      layersQueryCalls (syncMissingLayers 32 (.ok 4294967295) 4294967294
        (fun i _ => .ok [⟨i, 0⟩]) 3).1 = [(4294967295, 4294967295), (0, 0), (1, 1)] ∧
      (∀ fuel, (syncMissingLayers 64 (.ok 18446744073709551615) 18446744073709551614
        (fun i _ => .ok [⟨i, 0⟩]) fuel).2 = .running) := by
  refine ⟨?_, ?_, ?_⟩
  · intro fuel
    have h := syncLoop_max_head_running 32 (fun i _ => .ok [⟨i, 0⟩]) (fun i => ⟨_, rfl⟩) fuel
      ((4294967294 + 1) % 2 ^ 32)
    have h32 : 2 ^ 32 - 1 = 4294967295 := by norm_num
    rw [h32] at h
    simp only [syncMissingLayers]
    rcases h with h | h
    · simpa using h
    · norm_num at h
  · simp [syncMissingLayers, syncLoop, layersQueryCalls]
  · intro fuel
    have h := syncLoop_max_head_running 64 (fun i _ => .ok [⟨i, 0⟩]) (fun i => ⟨_, rfl⟩) fuel
      ((18446744073709551614 + 1) % 2 ^ 64)
    have h64 : 2 ^ 64 - 1 = 18446744073709551615 := by norm_num
    rw [h64] at h
    simp only [syncMissingLayers]
    rcases h with h | h
    · simpa using h
    · norm_num at h

/-- C2 (counterexample): checkpoint `5`, head `3`. No run of `syncMissingLayers` returns a
non-nil error: with any fuel it is either still at the loop test or has returned `nil`. -/
theorem syncMissingLayers_inverted_no_error :
    ¬ ∃ fuel e, (syncMissingLayers 32 (.ok 3) 5 (fun _ _ => .ok []) fuel).2
      = .returned (some e) := by
  rintro ⟨fuel, e, h⟩
  cases fuel with
  | zero => simp [syncMissingLayers, syncLoop] at h
  | succ n => simp [syncMissingLayers, syncLoop] at h

/-- C2 (amended): when the checkpoint `c` is above the head `h` (and `c + 1` is
representable), `syncMissingLayers` returns `nil` after reading the status and the
checkpoint: it makes no `LayersQuery` call and no `OnLayer` call. -/
theorem syncMissingLayers_inverted_returns_nil (w c h : Nat)
    (q : Nat → Nat → Except Err (List Layer)) (fuel : Nat) (hhc : h < c)
    (hw : c + 1 < 2 ^ w) :
    syncMissingLayers w (.ok h) c q (fuel + 1) = ([.status, .getLastLayer], .returned none) ∧
      onLayerCalls (syncMissingLayers w (.ok h) c q (fuel + 1)).1 = [] ∧
      layersQueryCalls (syncMissingLayers w (.ok h) c q (fuel + 1)).1 = [] := by
  have hmod : (c + 1) % 2 ^ w = c + 1 := Nat.mod_eq_of_lt hw
  have hne : h ≠ c := by omega
  have hrun : syncMissingLayers w (.ok h) c q (fuel + 1)
      = ([.status, .getLastLayer], .returned none) := by
    simp [syncMissingLayers, hne, hmod, syncLoop_exit w h q (c + 1) fuel (by omega)]
  rw [hrun]
  exact ⟨rfl, rfl, rfl⟩

/-- Witness for C2 (amended): checkpoint `5`, head `3`, 32-bit layer numbers. -/
theorem syncMissingLayers_inverted_returns_nil_witness :
    syncMissingLayers 32 (.ok 3) 5 (fun _ _ => .ok []) (0 + 1)
        = ([.status, .getLastLayer], .returned none) ∧
      onLayerCalls (syncMissingLayers 32 (.ok 3) 5 (fun _ _ => .ok []) (0 + 1)).1 = [] ∧
      layersQueryCalls (syncMissingLayers 32 (.ok 3) 5 (fun _ _ => .ok []) (0 + 1)).1 = [] :=
  syncMissingLayers_inverted_returns_nil 32 5 3 (fun _ _ => .ok []) 0 (by decide)
    (by norm_num)

/-- C5: checkpoint `c` below head `h`, the point queries for `c+1..i-1` succeed and the
one for layer `i` (`c < i ≤ h`) fails with `e`. Then `syncMissingLayers` returns `e`; its
calls are the replay of `c+1..i-1` followed by the failed query for `i` and nothing more,
so the queries are exactly those for `c+1..i` and the `OnLayer` calls exactly the layers
returned for `c+1..i-1`, in ascending order; and a later run from checkpoint `i-1` issues
its first query for layer `i`. -/
theorem syncMissingLayers_aborts_on_failed_query (w c h i : Nat)
    (q : Nat → Nat → Except Err (List Layer)) (layersOf : Nat → List Layer) (e : Err)
    (fuel : Nat) (hch : c < h) (hw : h < 2 ^ w) (hci : c < i) (hih : i ≤ h)
    (hok : ∀ j, c < j → j < i → q j j = .ok (layersOf j))
    (hfail : q i i = .error e) :
    syncMissingLayers w (.ok h) c q (fuel + 1 + (i - c - 1)) =
        (.status :: .getLastLayer :: (replay layersOf (c + 1) (i - c - 1)
          ++ [.layersQuery i i]), .returned (some e)) ∧
      layersQueryCalls (syncMissingLayers w (.ok h) c q (fuel + 1 + (i - c - 1))).1 =
        (List.range' (c + 1) (i - c)).map (fun j => (j, j)) ∧
      onLayerCalls (syncMissingLayers w (.ok h) c q (fuel + 1 + (i - c - 1))).1 =
        ((List.range' (c + 1) (i - c - 1)).map layersOf).flatten ∧
      ∀ (q2 : Nat → Nat → Except Err (List Layer)) (fuel2 : Nat),
        (layersQueryCalls (syncMissingLayers w (.ok h) (i - 1) q2 (fuel2 + 1)).1).head?
          = some (i, i) := by
  have hne : h ≠ c := by omega
  have hmod : (c + 1) % 2 ^ w = c + 1 := Nat.mod_eq_of_lt (by omega)
  have hrep := syncLoop_replay w h q layersOf (i - c - 1) (c + 1) (fuel + 1) (by omega)
    (by omega) (fun j h1 h2 => hok j (by omega) (by omega))
  have hend : c + 1 + (i - c - 1) = i := by omega
  have hstop : syncLoop w q h (fuel + 1) i = ([.layersQuery i i], .returned (some e)) := by
    rw [syncLoop, if_pos hih, hfail]
  rw [hend, hstop] at hrep
  have hrun : syncMissingLayers w (.ok h) c q (fuel + 1 + (i - c - 1)) =
      (.status :: .getLastLayer :: (replay layersOf (c + 1) (i - c - 1)
        ++ [.layersQuery i i]), .returned (some e)) := by
    simp [syncMissingLayers, hne, hmod, hrep]
  rw [hrun]
  refine ⟨rfl, ?_, ?_, ?_⟩
  · have hsplit : i - c = (i - c - 1) + 1 := by omega
    rw [hsplit, List.range'_concat]
    simp [layersQueryCalls, layersQueryCalls_append, layersQueryCalls_replay, hend]
  · simp [onLayerCalls, onLayerCalls_append, onLayerCalls_replay]
  · intro q2 fuel2
    have hne2 : h ≠ i - 1 := by omega
    have hmod2 : (i - 1 + 1) % 2 ^ w = i := by
      rw [Nat.sub_add_cancel (by omega)]; exact Nat.mod_eq_of_lt (by omega)
    simp only [syncMissingLayers, hne2, if_false, hmod2]
    rw [syncLoop, if_pos hih]
    cases q2 i i <;> simp [layersQueryCalls]

/-- Witness for C5: checkpoint `10`, head `13`, the query for layer `12` fails. -/
theorem syncMissingLayers_aborts_on_failed_query_witness :
    syncMissingLayers 32 (.ok 13) 10
        (fun j _ => if j = 12 then .error (.other "unavailable") else .ok [⟨j, 0⟩])
        (0 + 1 + (12 - 10 - 1)) =
        (.status :: .getLastLayer :: (replay (fun j => [⟨j, 0⟩]) (10 + 1) (12 - 10 - 1)
          ++ [.layersQuery 12 12]), .returned (some (.other "unavailable"))) :=
  (syncMissingLayers_aborts_on_failed_query 32 10 13 12
    (fun j _ => if j = 12 then .error (.other "unavailable") else .ok [⟨j, 0⟩])
    (fun j => [⟨j, 0⟩]) (.other "unavailable") 0 (by decide) (by norm_num) (by decide)
    (by decide) (fun j _ h2 => by simp; omega) (by simp)).1

/-- The gap-closure example of the specification: checkpoint `10`, head `13`, one layer
per query. `OnLayer` is called for layers `11`, `12`, `13` in that order and the run
returns `nil`; with checkpoint equal to head nothing is queried or forwarded. -/
theorem syncMissingLayers_example_10_13 :
    syncMissingLayers 32 (.ok 13) 10 (fun j _ => .ok [⟨j, 0⟩]) 4 =
        ([.status, .getLastLayer, .layersQuery 11 11, .onLayer ⟨11, 0⟩, .layersQuery 12 12,
          .onLayer ⟨12, 0⟩, .layersQuery 13 13, .onLayer ⟨13, 0⟩], .returned none) ∧
      syncMissingLayers 32 (.ok 13) 13 (fun j _ => .ok [⟨j, 0⟩]) 0 =
        ([.status, .getLastLayer], .returned none) := by
  constructor <;> simp [syncMissingLayers, syncLoop]

/-! ## The pumps -/

theorem layersPumpLoop_trace (f : Nat) (terminal : Err) (records : List Layer) :
    layersPumpLoop f terminal records =
      (forwardInOrder f records ++ [.recvFail terminal], terminal) := by
  induction records with
  | nil => rfl
  | cons r rs ih =>
    by_cases h : r.Number < f
    · have h2 : ¬ f ≤ r.Number := by omega
      simp [layersPumpLoop, forwardInOrder, ih, h, h2]
    · have h2 : f ≤ r.Number := by omega
      simp [layersPumpLoop, forwardInOrder, ih, h, h2]

theorem onLayerCalls_forwardInOrder (f : Nat) (records : List Layer) :
    onLayerCalls (forwardInOrder f records) = records.filter fun r => decide (f ≤ r.Number) := by
  induction records with
  | nil => rfl
  | cons r rs ih =>
    by_cases h : f ≤ r.Number <;>
      simp [forwardInOrder, onLayerCalls, onLayerCalls_append, ih, h]

theorem notifications_forwardInOrder (f : Nat) (records : List Layer) :
    notifications (forwardInOrder f records) = [] := by
  induction records with
  | nil => rfl
  | cons r rs ih =>
    by_cases h : f ≤ r.Number <;>
      simp [forwardInOrder, notifications, notifications_append, ih, h]

theorem malfeasancePumpLoop_notifications (terminal : Err) (proofs : List Nat) :
    notifications (malfeasancePumpLoop terminal proofs).1 = [] := by
  induction proofs with
  | nil => rfl
  | cons p ps ih => simp [malfeasancePumpLoop, notifications, ih]

theorem getLast?_cons_snoc {α : Type} (x y : α) (xs : List α) :
    (x :: (xs ++ [y])).getLast? = some y := by
  have hsplit : x :: (xs ++ [y]) = (x :: xs) ++ [y] := rfl
  rw [hsplit, List.getLast?_append]
  simp

/-- C3: on every exit path of `layersPump` and of `malfeasancePump` (the stream cannot be
established, `Recv` returns `io.EOF`, `Recv` returns another error, after any number of
records, none included) the values sent on the notify channel are exactly `+streamKind`
then `-streamKind`; the first is the first call of the run and the second its last call,
made before the pump returns. -/
theorem pump_start_stop_pairing (k : Int) (f : Nat) (layerStream : Except Err (Stream Layer))
    (proofStream : Except Err (Stream Nat)) :
    (notifications (layersPump k f layerStream).1 = [k, -k] ∧
      (layersPump k f layerStream).1.head? = some (.notify k) ∧
      (layersPump k f layerStream).1.getLast? = some (.notify (-k))) ∧
    (notifications (malfeasancePump k proofStream).1 = [k, -k] ∧
      (malfeasancePump k proofStream).1.head? = some (.notify k) ∧
      (malfeasancePump k proofStream).1.getLast? = some (.notify (-k))) := by
  constructor
  · cases layerStream with
    | error err => simp [layersPump, notifications]
    | ok stream =>
      have hlast := getLast?_cons_snoc Event.layerStream (Event.notify (-k))
        (forwardInOrder f stream.records ++ [Event.recvFail stream.terminal])
      rw [List.append_assoc] at hlast
      simp [layersPump, notifications, notifications_append, layersPumpLoop_trace,
        notifications_forwardInOrder]
      exact hlast
  · cases proofStream with
    | error err => simp [malfeasancePump, notifications]
    | ok stream =>
      simp [malfeasancePump, notifications, notifications_append,
        malfeasancePumpLoop_notifications]
      exact getLast?_cons_snoc _ _ _

/-- C4: for the records `r1..rn` received before the failing `Recv` and every floor `f`,
the layers passed to `OnLayer` are exactly the records with `Number ≥ f`, in receipt
order, and the calls of the run are: the start notification, the subscription, then for
each record in turn its `Recv` followed (when it is not below the floor) by its `OnLayer`
call before the next `Recv`, then the failing `Recv` and the stop notification. -/
theorem layersPump_receipt_order (k : Int) (f : Nat) (records : List Layer) (terminal : Err) :
    onLayerCalls (layersPump k f (.ok ⟨records, terminal⟩)).1 =
        records.filter (fun r => decide (f ≤ r.Number)) ∧
      (layersPump k f (.ok ⟨records, terminal⟩)).1 =
        .notify k :: .layerStream :: (forwardInOrder f records
          ++ [.recvFail terminal, .notify (-k)]) ∧
      (layersPump k f (.ok ⟨records, terminal⟩)).2 = terminal := by
  simp [layersPump, layersPumpLoop_trace, onLayerCalls, onLayerCalls_append,
    onLayerCalls_forwardInOrder]

/-! ## `getNetworkInfo` -/

/-- C9 (code at the failing input): `GenesisID` fails and the six other calls succeed.
The error is logged and dropped: `getNetworkInfo` goes on, reports an empty genesis id
through `OnNetworkInfo`, forwards the accounts, and returns `nil`. -/
theorem getNetworkInfo_GenesisID_failure_ignored (BytesToHex : List Nat → String) :
    getNetworkInfo BytesToHex
        { GenesisTime := .ok 1700000000, GenesisID := .error (.other "unavailable"),
          EpochNumLayers := .ok 4032, MaxTransactionsPerSecond := .ok 100,
          LayerDuration := .ok 300, Accounts := .ok [7, 9], PostConfig := .ok (8, 1024) } =
      ([.rpc "GenesisTime", .rpc "GenesisID", .rpc "EpochNumLayers",
        .rpc "MaxTransactionsPerSecond", .rpc "LayerDuration", .rpc "Accounts",
        .rpc "PostConfig",
        .onNetworkInfo (BytesToHex []) 1700000000 4032 100 300 1024,
        .onAccount 7, .onAccount 9], none) := by
  simp [getNetworkInfo]

/-- The six calls whose failure is fatal: when `GenesisTime`, `EpochNumLayers`,
`MaxTransactionsPerSecond`, `LayerDuration`, `Accounts` or `PostConfig` fails,
`getNetworkInfo` returns an error and calls neither `OnNetworkInfo` nor `OnAccount`. -/
theorem getNetworkInfo_fatal_calls (BytesToHex : List Nat → String) (c : NetworkRpc)
    (h : (∃ e, c.GenesisTime = .error e) ∨ (∃ e, c.EpochNumLayers = .error e) ∨
      (∃ e, c.MaxTransactionsPerSecond = .error e) ∨ (∃ e, c.LayerDuration = .error e) ∨
      (∃ e, c.Accounts = .error e) ∨ (∃ e, c.PostConfig = .error e)) :
    (getNetworkInfo BytesToHex c).2 ≠ none ∧
      networkInfoCalls (getNetworkInfo BytesToHex c).1 = [] := by
  obtain ⟨gt, gi, en, mt, ld, ac, pc⟩ := c
  simp only [getNetworkInfo]
  cases gt <;> cases en <;> cases mt <;> cases ld <;> cases ac <;> cases pc <;>
    simp_all [networkInfoCalls]

/-- When all seven calls succeed `getNetworkInfo` returns `nil` after one `OnNetworkInfo`
call, with unit size `bitsPerLabel * labelsPerUnit / 8` in 64-bit arithmetic, followed by
one `OnAccount` call per account in list order. -/
theorem getNetworkInfo_success (BytesToHex : List Nat → String)
    (gt en mt ld b l : Nat) (gi : List Nat) (accounts : List Nat) :
    (getNetworkInfo BytesToHex ⟨.ok gt, .ok gi, .ok en, .ok mt, .ok ld, .ok accounts,
        .ok (b, l)⟩).2 = none ∧
      networkInfoCalls (getNetworkInfo BytesToHex ⟨.ok gt, .ok gi, .ok en, .ok mt, .ok ld,
        .ok accounts, .ok (b, l)⟩).1 =
        .onNetworkInfo (BytesToHex gi) gt en mt ld ((b % 2 ^ 64) * (l % 2 ^ 64) % 2 ^ 64 / 8)
          :: accounts.map .onAccount := by
  have hacc : ∀ xs : List Nat, networkInfoCalls (xs.map Event.onAccount)
      = xs.map Event.onAccount := by
    intro xs
    induction xs with
    | nil => rfl
    | cons x xs ih => simp [networkInfoCalls, ih]
  simp [getNetworkInfo, networkInfoCalls, hacc]

end Collector

namespace Model

/-- The dispatch reads `t` alone: the `Transaction` returned does not depend on the
variant fields of the wire transaction. -/
theorem NewTransaction_wire_variant_unread (BytesToHex BytesToAddressString : List Nat → String)
    (t : Probed) (inp : PbTransaction) (layer : Nat) (blockId : String)
    (v1 : Option CoinTransferTransaction) (v2 : Option SmartContractTransaction) :
    NewTransaction BytesToHex BytesToAddressString t
        { inp with CoinTransfer := v1, SmartContract := v2 } layer blockId
      = NewTransaction BytesToHex BytesToAddressString t inp layer blockId := rfl

/-- Whatever `t` holds, the variant-independent fields are those of the struct literal:
resetting `Receiver`, `Type` and `SvmData` gives `NewTransaction.base`. -/
theorem NewTransaction_base_fields (BytesToHex BytesToAddressString : List Nat → String)
    (t : Probed) (inp : PbTransaction) (layer : Nat) (blockId : String) :
    { NewTransaction BytesToHex BytesToAddressString t inp layer blockId with
        Receiver := "", Type_ := 0, SvmData := "" }
      = NewTransaction.base BytesToHex BytesToAddressString inp layer blockId := by
  obtain ⟨c, s⟩ := t
  cases c <;> cases s <;> rfl

/-- The variant mapping holds of what `t` carries: with the coin-transfer variant in `t`
the result has `Receiver` = the address string of its receiver, `Type = 0` and empty
`SvmData`; with only the smart-contract variant in `t` it has that variant's type, payload
and account address. -/
theorem NewTransaction_maps_probed_variant
    (BytesToHex BytesToAddressString : List Nat → String) (inp : PbTransaction) (layer : Nat)
    (blockId : String) (ct : CoinTransferTransaction) (sc : SmartContractTransaction)
    (v2 : Option SmartContractTransaction) :
    ((NewTransaction BytesToHex BytesToAddressString ⟨some ct, v2⟩ inp layer blockId).Receiver
        = BytesToAddressString (ct.Receiver.getD []) ∧
      (NewTransaction BytesToHex BytesToAddressString ⟨some ct, v2⟩ inp layer blockId).Type_
        = 0 ∧
      (NewTransaction BytesToHex BytesToAddressString ⟨some ct, v2⟩ inp layer blockId).SvmData
        = "") ∧
    ((NewTransaction BytesToHex BytesToAddressString ⟨none, some sc⟩ inp layer blockId).Type_
        = sc.Type_ ∧
      (NewTransaction BytesToHex BytesToAddressString ⟨none, some sc⟩ inp layer
        blockId).SvmData = sc.Data ∧
      (NewTransaction BytesToHex BytesToAddressString ⟨none, some sc⟩ inp layer
        blockId).Receiver = BytesToAddressString (sc.AccountId.getD [])) :=
  ⟨⟨rfl, rfl, rfl⟩, ⟨rfl, rfl, rfl⟩⟩

/-- C7 (code at the failing input): the wire transaction carrying the coin-transfer
variant with receiver bytes `[0xAA]`, and the one carrying the smart-contract variant with
type `2` and payload `"abc"`. The contract asks for `Receiver` = the address string of
`[0xAA]` for the first and `Type = 2`, `SvmData = "abc"` for the second. The code probes
`t`, not the record: whatever `t` holds, both records and the record with no variant get
the same `Receiver`, `Type` and `SvmData`; and when `t` carries no variant these are the
defaults `""`, `0`, `""`. -/
theorem NewTransaction_ignores_wire_variant
    (BytesToHex BytesToAddressString : List Nat → String) (t : Probed) :
    NewTransaction BytesToHex BytesToAddressString t coinTransferRecord 7 "b"
        = NewTransaction BytesToHex BytesToAddressString t emptyVariantRecord 7 "b" ∧
      NewTransaction BytesToHex BytesToAddressString t smartContractRecord 7 "b"
        = NewTransaction BytesToHex BytesToAddressString t emptyVariantRecord 7 "b" ∧
      (NewTransaction BytesToHex BytesToAddressString ⟨none, none⟩ coinTransferRecord 7
        "b").Receiver = "" ∧
      (NewTransaction BytesToHex BytesToAddressString ⟨none, none⟩ smartContractRecord 7
        "b").Type_ = 0 ∧
      (NewTransaction BytesToHex BytesToAddressString ⟨none, none⟩ smartContractRecord 7
        "b").SvmData = "" :=
  ⟨rfl, rfl, rfl, rfl, rfl⟩

/-- Every value `NewTransaction` returns is one of the outcomes the rejection contract
rules out for a malformed record. -/
theorem NewTransaction_partiallyMapped (BytesToHex BytesToAddressString : List Nat → String)
    (t : Probed) (inp : PbTransaction) (layer : Nat) (blockId : String) :
    partiallyMapped BytesToAddressString t
      (NewTransaction BytesToHex BytesToAddressString t inp layer blockId) := by
  obtain ⟨c, s⟩ := t
  cases c with
  | some ct => exact Or.inr (Or.inl ⟨ct, rfl, rfl, rfl, rfl⟩)
  | none =>
    cases s with
    | some sc => exact Or.inr (Or.inr ⟨sc, rfl, rfl, rfl, rfl⟩)
    | none => exact Or.inl ⟨rfl, rfl, rfl⟩

/-- C8 (counterexample): the wire transaction with neither variant present is not
rejected. For no helpers and no value of `t` does `NewTransaction` avoid returning a
`Transaction` with `Receiver`, `Type` and `SvmData` at their defaults or populated from one
variant alone; and when `t` carries no variant either, the value returned has the three
fields at their defaults. -/
theorem NewTransaction_malformed_not_rejected :
    (¬ ∃ (BytesToHex BytesToAddressString : List Nat → String) (t : Probed),
        ¬ partiallyMapped BytesToAddressString t
          (NewTransaction BytesToHex BytesToAddressString t emptyVariantRecord 7 "b")) ∧
      NewTransaction (fun _ => "id") (fun _ => "addr") ⟨none, none⟩ emptyVariantRecord 7 "b" =
        { Id := "id", Sender := "addr", Amount := 5, Counter := 1, Layer := 7, Block := "b",
          Signature := "id", PublicKey := "id", Receiver := "", Type_ := 0,
          SvmData := "" } := by
  refine ⟨?_, by decide⟩
  rintro ⟨hex, addr, t, h⟩
  exact h (NewTransaction_partiallyMapped hex addr t emptyVariantRecord 7 "b")

/-- C8 (amended): `NewTransaction` has no rejection path. For every wire transaction,
the one with neither variant and the one with both included, it returns a `Transaction`
whose variant-independent fields (`Id`, `Sender`, `Amount`, `Counter`, `Layer`, `Block`,
`GasProvided`, `GasPrice`, `Scheme`, `Signature`, `PublicKey`) are mapped from the
record. -/
theorem NewTransaction_malformed_mapping (BytesToHex BytesToAddressString : List Nat → String)
    (t : Probed) (inp : PbTransaction) (layer : Nat) (blockId : String)
    (ct : CoinTransferTransaction) (sc : SmartContractTransaction) :
    ({ NewTransaction BytesToHex BytesToAddressString t
          { inp with CoinTransfer := none, SmartContract := none } layer blockId with
        Receiver := "", Type_ := 0, SvmData := "" }
      = NewTransaction.base BytesToHex BytesToAddressString inp layer blockId) ∧
    ({ NewTransaction BytesToHex BytesToAddressString t
          { inp with CoinTransfer := some ct, SmartContract := some sc } layer blockId with
        Receiver := "", Type_ := 0, SvmData := "" }
      = NewTransaction.base BytesToHex BytesToAddressString inp layer blockId) :=
  ⟨NewTransaction_base_fields BytesToHex BytesToAddressString t
      { inp with CoinTransfer := none, SmartContract := none } layer blockId,
    NewTransaction_base_fields BytesToHex BytesToAddressString t
      { inp with CoinTransfer := some ct, SmartContract := some sc } layer blockId⟩

end Model

namespace Storage

/-! ## Documents and `$set` -/

theorem lookup_setField_self (k : String) (v : Value) (d : Doc) :
    (setField k v d).lookup k = some v := by
  induction d with
  | nil => simp [setField, List.lookup]
  | cons kv rest ih =>
    obtain ⟨k1, v1⟩ := kv
    by_cases h : k1 = k
    · simp [setField, h, List.lookup]
    · have h2 : (k == k1) = false := by simpa using fun e => h e.symm
      simp [setField, h, List.lookup, h2, ih]

theorem lookup_setField_ne (k k2 : String) (v : Value) (d : Doc) (hne : k2 ≠ k) :
    (setField k2 v d).lookup k = d.lookup k := by
  induction d with
  | nil =>
    have h2 : (k == k2) = false := by simpa using fun e => hne e.symm
    simp [setField, List.lookup, h2]
  | cons kv rest ih =>
    obtain ⟨k1, v1⟩ := kv
    by_cases h : k1 = k2
    · subst h
      have h2 : (k == k1) = false := by simpa using fun e => hne e.symm
      simp [setField, List.lookup, h2]
    · by_cases h3 : k = k1
      · subst h3; simp [setField, h, List.lookup]
      · have h4 : (k == k1) = false := by simpa using h3
        simp [setField, h, List.lookup, h4, ih]

theorem lookup_applySet_untouched (k : String) (set : Doc) (hset : ∀ kv ∈ set, kv.1 ≠ k) :
    ∀ d : Doc, (applySet set d).lookup k = d.lookup k := by
  induction set with
  | nil => intro d; rfl
  | cons kv rest ih =>
    intro d
    have h1 : kv.1 ≠ k := hset kv (List.mem_cons_self _ _)
    have h2 : ∀ x ∈ rest, x.1 ≠ k := fun x hx => hset x (List.mem_cons_of_mem _ hx)
    simp only [applySet, List.foldl_cons]
    have := ih h2 (setField kv.1 kv.2 d)
    simp only [applySet] at this
    rw [this, lookup_setField_ne k kv.1 kv.2 d h1]

theorem matchesFilter_single (k : String) (V : Value) (d : Doc) :
    matchesFilter [(k, V)] d = true ↔ d.lookup k = some V := by
  simp [matchesFilter]

/-! ## `UpdateOne` on a uniquely indexed key -/

theorem countWith_eq_zero (k v : String) (c : Collection)
    (hno : ∀ d ∈ c, d.lookup k ≠ some (Value.str v)) : countWith k v c = 0 := by
  induction c with
  | nil => rfl
  | cons d rest ih =>
    have h1 : (d.lookup k == some (Value.str v)) = false := by
      simpa using hno d (List.mem_cons_self _ _)
    have h2 := ih fun x hx => hno x (List.mem_cons_of_mem _ hx)
    simp only [countWith] at h2
    simp [countWith, List.filter_cons, h1, h2]

theorem countWith_append (k v : String) (a b : Collection) :
    countWith k v (a ++ b) = countWith k v a + countWith k v b := by
  simp [countWith, List.filter_append]

theorem countWith_cons_match (k v : String) (d : Doc) (c : Collection)
    (hd : d.lookup k = some (Value.str v)) :
    countWith k v (d :: c) = countWith k v c + 1 := by
  simp [countWith, List.filter_cons, hd]

theorem countWith_le_one (k v : String) (c : Collection) (huniq : uniqueIndex k c) :
    countWith k v c ≤ 1 := by
  induction c with
  | nil => simp [countWith]
  | cons d rest ih =>
    unfold uniqueIndex at huniq ih
    rw [List.map_cons, List.nodup_cons] at huniq
    by_cases hd : d.lookup k = some (Value.str v)
    · have hzero : countWith k v rest = 0 := by
        apply countWith_eq_zero
        intro x hx hk
        exact huniq.1 (List.mem_map.mpr ⟨x, hx, by rw [hk, hd]⟩)
      rw [countWith_cons_match k v d rest hd, hzero]
    · have h1 : (d.lookup k == some (Value.str v)) = false := by simpa using hd
      have := ih huniq.2
      simp only [countWith] at this
      simp [countWith, List.filter_cons, h1, this]

theorem updateFirst_eq_none (filter set : Doc) (c : Collection)
    (h : updateFirst filter set c = none) : ∀ d ∈ c, matchesFilter filter d = false := by
  induction c with
  | nil => intro d hd; cases hd
  | cons x rest ih =>
    by_cases hx : matchesFilter filter x = true
    · simp [updateFirst, hx] at h
    · simp only [updateFirst, hx] at h
      have hrest : updateFirst filter set rest = none := by
        cases hr : updateFirst filter set rest with
        | none => rfl
        | some r => simp [hr] at h
      intro d hd
      rcases List.mem_cons.mp hd with rfl | hd
      · simpa using hx
      · exact ih hrest d hd

theorem updateFirst_eq_some (filter set : Doc) (c c2 : Collection)
    (h : updateFirst filter set c = some c2) :
    ∃ pre d post, c = pre ++ d :: post ∧ matchesFilter filter d = true ∧
      c2 = pre ++ applySet set d :: post := by
  induction c generalizing c2 with
  | nil => simp [updateFirst] at h
  | cons x rest ih =>
    by_cases hx : matchesFilter filter x = true
    · simp only [updateFirst, hx, if_true, Option.some.injEq] at h
      exact ⟨[], x, rest, rfl, hx, h.symm⟩
    · cases hr : updateFirst filter set rest with
      | none => simp [updateFirst, hx, hr] at h
      | some r =>
        simp [updateFirst, hx, hr] at h
        obtain ⟨pre, d, post, h1, h2, h3⟩ := ih r hr
        exact ⟨x :: pre, d, post, by simp [h1], h2, by simp [← h, h3]⟩

/-- `UpdateOne` with the filter `{k: v}` on a collection uniquely indexed on `k`, where
`$set` does not touch `k`: the write succeeds and keeps the index; afterwards the number
of records with `k = v` is `1` under upsert and unchanged otherwise, and every record
with `k = v` carries the `$set` fields. -/
theorem UpdateOne_single_key (k v : String) (set : Doc) (upsert : Option Bool)
    (c : Collection) (hset : ∀ kv ∈ set, kv.1 ≠ k) (huniq : uniqueIndex k c) :
    ∃ c2, UpdateOne k c [(k, .str v)] set upsert = .ok c2 ∧ uniqueIndex k c2 ∧
      countWith k v c2 = (if upsert = some true then 1 else countWith k v c) ∧
      ∀ Q : Doc → Prop, (∀ d, Q (applySet set d)) →
        ∀ d ∈ c2, d.lookup k = some (.str v) → Q d := by
  cases hU : updateFirst [(k, .str v)] set c with
  | none =>
    have hno : ∀ d ∈ c, d.lookup k ≠ some (Value.str v) := by
      intro d hd hk
      have := updateFirst_eq_none _ _ _ hU d hd
      rw [(matchesFilter_single k (.str v) d).mpr hk] at this
      cases this
    have hnotin : some (Value.str v) ∉ c.map fun d => d.lookup k := by
      intro hmem
      obtain ⟨d, hd, hk⟩ := List.mem_map.mp hmem
      exact hno d hd hk
    have hzero : countWith k v c = 0 := countWith_eq_zero k v c hno
    by_cases hup : upsert = some true
    · have hnew : (applySet set [(k, Value.str v)]).lookup k = some (Value.str v) := by
        rw [lookup_applySet_untouched k set hset]; simp [List.lookup]
      have huniq2 : uniqueIndex k (c ++ [applySet set [(k, Value.str v)]]) := by
        unfold uniqueIndex at huniq ⊢
        rw [List.map_append, List.map_singleton, hnew]
        exact List.Nodup.append huniq (List.nodup_singleton _)
          (by simpa [List.Disjoint] using hnotin)
      refine ⟨c ++ [applySet set [(k, .str v)]], ?_, huniq2, ?_, ?_⟩
      · simp [UpdateOne, hU, hup, huniq2]
      · rw [countWith_append, hzero, countWith_cons_match k v _ [] hnew]
        simp [hup, countWith]
      · intro Q hQ d hd hk
        rcases List.mem_append.mp hd with hd | hd
        · exact absurd hk (hno d hd)
        · rw [List.mem_singleton.mp hd]; exact hQ _
    · refine ⟨c, ?_, huniq, ?_, ?_⟩
      · simp [UpdateOne, hU, hup]
      · simp [hup]
      · intro Q _ d hd hk
        exact absurd hk (hno d hd)
  | some c2 =>
    obtain ⟨pre, d, post, hc, hm, hc2⟩ := updateFirst_eq_some _ _ _ _ hU
    have hd : d.lookup k = some (Value.str v) := (matchesFilter_single k (.str v) d).mp hm
    have hd2 : (applySet set d).lookup k = some (Value.str v) := by
      rw [lookup_applySet_untouched k set hset]; exact hd
    have hkeys : (c2.map fun x => x.lookup k) = c.map fun x => x.lookup k := by
      rw [hc, hc2]; simp [hd, hd2]
    have huniq2 : uniqueIndex k c2 := by
      unfold uniqueIndex at huniq ⊢; rw [hkeys]; exact huniq
    have hcount : countWith k v c2 = countWith k v c := by
      rw [hc, hc2, countWith_append, countWith_append, countWith_cons_match k v _ post hd,
        countWith_cons_match k v _ post hd2]
    have hone : countWith k v c = 1 := by
      have hle := countWith_le_one k v c huniq
      have hpos : 0 < countWith k v c := by
        rw [hc, countWith_append, countWith_cons_match k v _ post hd]; omega
      omega
    refine ⟨c2, ?_, huniq2, ?_, ?_⟩
    · simp [UpdateOne, hU, huniq2]
    · rw [hcount, hone]; simp
    · intro Q hQ x hx hk
      have hnd : ((pre.map fun x => x.lookup k) ++ some (Value.str v) ::
          (post.map fun x => x.lookup k)).Nodup := by
        have := huniq2
        unfold uniqueIndex at this
        rw [hc2] at this
        simpa [hd2] using this
      have hnd2 := List.nodup_cons.mp (List.nodup_middle.mp hnd)
      rw [hc2] at hx
      rcases List.mem_append.mp hx with hx | hx
      · exact absurd (List.mem_append_left _ (List.mem_map.mpr ⟨x, hx, hk⟩)) hnd2.1
      · rcases List.mem_cons.mp hx with rfl | hx
        · exact hQ _
        · exact absurd (List.mem_append_right _ (List.mem_map.mpr ⟨x, hx, hk⟩)) hnd2.1

/-! ## `UpdateSmesher` -/

theorem coinbase_after_mapping_set (coinbase : String) (d : Doc) :
    (applySet [("coinbase", Value.str coinbase)] d).lookup "coinbase"
      = some (Value.str coinbase) := by
  simp [applySet, lookup_setField_self]

theorem coinbase_after_smesher_set (coinbase : String) (space atxCount timestamp : Int)
    (d : Doc) :
    (applySet [("cSize", Value.int space), ("coinbase", Value.str coinbase),
        ("atxcount", Value.int atxCount), ("timestamp", Value.int timestamp)] d).lookup
        "coinbase" = some (Value.str coinbase) := by
  simp only [applySet, List.foldl_cons, List.foldl_nil]
  rw [lookup_setField_ne "coinbase" "timestamp" _ _ (by decide),
    lookup_setField_ne "coinbase" "atxcount" _ _ (by decide), lookup_setField_self]

/-- One `UpdateSmesher` call on an indexed store: it returns `nil`, keeps the indexes and
the activations, leaves exactly one coinbase mapping for the smesher, leaves the number
of smesher records with that id as it was, and every such record and mapping carries the
coinbase of the call. -/
theorem UpdateSmesher_once (s : Store) (smesher coinbase : String) (space timestamp : Nat)
    (hidx : s.indexed) :
    (UpdateSmesher s smesher coinbase space timestamp).2.2 = none ∧
      (UpdateSmesher s smesher coinbase space timestamp).1.indexed ∧
      countWith "smesherId" smesher
        (UpdateSmesher s smesher coinbase space timestamp).1.coinbases = 1 ∧
      (∀ d ∈ (UpdateSmesher s smesher coinbase space timestamp).1.coinbases,
        d.lookup "smesherId" = some (.str smesher) →
          d.lookup "coinbase" = some (.str coinbase)) ∧
      countWith "id" smesher (UpdateSmesher s smesher coinbase space timestamp).1.smeshers
        = countWith "id" smesher s.smeshers ∧
      (∀ d ∈ (UpdateSmesher s smesher coinbase space timestamp).1.smeshers,
        d.lookup "id" = some (.str smesher) →
          d.lookup "coinbase" = some (.str coinbase)) := by
  obtain ⟨cb, hcb, hcbu, hcbn, hcbq⟩ := UpdateOne_single_key "smesherId" smesher
    [("coinbase", .str coinbase)] (some true) s.coinbases
    (by intro kv hkv; simp at hkv; subst hkv; simp) hidx.2
  obtain ⟨sm, hsm, hsmu, hsmn, hsmq⟩ := UpdateOne_single_key "id" smesher
    [("cSize", .int space), ("coinbase", .str coinbase),
      ("atxcount", .int (CountDocuments s.activations [("smesher", .str smesher)])),
      ("timestamp", .int timestamp)] none s.smeshers
    (by intro kv hkv; simp at hkv; rcases hkv with h | h | h | h <;> subst h <;> simp)
    hidx.1
  have hrun : UpdateSmesher s smesher coinbase space timestamp =
      ({ smeshers := sm, coinbases := cb, activations := s.activations },
        [⟨"coinbases", [("smesherId", .str smesher)], [("coinbase", .str coinbase)],
            some true⟩,
          ⟨"smeshers", [("id", .str smesher)],
            [("cSize", .int space), ("coinbase", .str coinbase),
              ("atxcount", .int (CountDocuments s.activations [("smesher", .str smesher)])),
              ("timestamp", .int timestamp)], none⟩], none) := by
    simp [UpdateSmesher, hcb, hsm]
  rw [hrun]
  refine ⟨rfl, ⟨hsmu, hcbu⟩, ?_, ?_, ?_, ?_⟩
  · simpa using hcbn
  · exact hcbq (fun d => d.lookup "coinbase" = some (.str coinbase))
      (coinbase_after_mapping_set coinbase)
  · simpa using hsmn
  · exact hsmq (fun d => d.lookup "coinbase" = some (.str coinbase))
      (coinbase_after_smesher_set coinbase _ _ _)

/-- C6 (counterexample): on the empty store two successful `UpdateSmesher` calls for the
same id leave one coinbase mapping but no smesher record with that id. -/
theorem UpdateSmesher_no_smesher_upsert :
    (UpdateSmesher ⟨[], [], []⟩ "s1" "a" 1 1).2.2 = none ∧
      (UpdateSmesher (UpdateSmesher ⟨[], [], []⟩ "s1" "a" 1 1).1 "s1" "b" 1 1).2.2 = none ∧
      (UpdateSmesher (UpdateSmesher ⟨[], [], []⟩ "s1" "a" 1 1).1 "s1" "b" 1 1).1 =
        ⟨[], [[("smesherId", .str "s1"), ("coinbase", .str "b")]], []⟩ ∧
      countWith "id" "s1"
        (UpdateSmesher (UpdateSmesher ⟨[], [], []⟩ "s1" "a" 1 1).1 "s1" "b" 1 1).1.smeshers
        ≠ 1 := by
  decide

/-- C6 (amended): on a store with the unique indexes of `InitSmeshersStorage`, two
`UpdateSmesher` calls for the same smesher id, with coinbase `a` then `b`, both succeed;
afterwards `coinbases` holds exactly one record with that `smesherId` and its coinbase is
`b`; `smeshers` holds as many records with that id as before (at most one: the smesher
write is an update, not an upsert), and each of them has coinbase `b`. -/
theorem UpdateSmesher_twice (s : Store) (smesher a b : String)
    (space1 timestamp1 space2 timestamp2 : Nat) (hidx : s.indexed) :
    (UpdateSmesher s smesher a space1 timestamp1).2.2 = none ∧
      (UpdateSmesher (UpdateSmesher s smesher a space1 timestamp1).1 smesher b space2
        timestamp2).2.2 = none ∧
      countWith "smesherId" smesher
        (UpdateSmesher (UpdateSmesher s smesher a space1 timestamp1).1 smesher b space2
          timestamp2).1.coinbases = 1 ∧
      (∀ d ∈ (UpdateSmesher (UpdateSmesher s smesher a space1 timestamp1).1 smesher b space2
          timestamp2).1.coinbases,
        d.lookup "smesherId" = some (.str smesher) → d.lookup "coinbase" = some (.str b)) ∧
      countWith "id" smesher
        (UpdateSmesher (UpdateSmesher s smesher a space1 timestamp1).1 smesher b space2
          timestamp2).1.smeshers = countWith "id" smesher s.smeshers ∧
      countWith "id" smesher s.smeshers ≤ 1 ∧
      (∀ d ∈ (UpdateSmesher (UpdateSmesher s smesher a space1 timestamp1).1 smesher b space2
          timestamp2).1.smeshers,
        d.lookup "id" = some (.str smesher) → d.lookup "coinbase" = some (.str b)) := by
  obtain ⟨h1, hidx1, _, _, hn1, _⟩ := UpdateSmesher_once s smesher a space1 timestamp1 hidx
  obtain ⟨h2, _, hc2, hq2, hn2, hs2⟩ := UpdateSmesher_once
    (UpdateSmesher s smesher a space1 timestamp1).1 smesher b space2 timestamp2 hidx1
  exact ⟨h1, h2, hc2, hq2, hn2.trans hn1, countWith_le_one "id" smesher s.smeshers hidx.1,
    hs2⟩

/-- Witness for C6 (amended): a store that already holds the smesher `s1`. -/
theorem UpdateSmesher_twice_witness :
    exampleStore.indexed ∧
      (UpdateSmesher (UpdateSmesher exampleStore "s1" "a" 1 1).1 "s1" "b" 2 2).1
        = { smeshers := [[("id", .str "s1"), ("name", .str "n"), ("coinbase", .str "b"),
              ("cSize", .int 2), ("atxcount", .int 1), ("timestamp", .int 2)]]
            coinbases := [[("smesherId", .str "s1"), ("coinbase", .str "b")]]
            activations := [[("smesher", .str "s1")]] } ∧
      countWith "smesherId" "s1"
        (UpdateSmesher (UpdateSmesher exampleStore "s1" "a" 1 1).1 "s1" "b" 2 2).1.coinbases
        = 1 :=
  ⟨⟨by decide, by decide⟩, by decide,
    (UpdateSmesher_twice exampleStore "s1" "a" "b" 1 1 2 2 ⟨by decide, by decide⟩).2.2.1⟩

/-! ## Batched and non-batched writes -/

/-- C10: the two models `UpdateSmesherQuery` returns are, in order, the write
`UpdateSmesher` issues on `coinbases` and the one it issues on `smeshers`: same filter,
same `$set` document, same upsert flag (set on the coinbase mapping, unset on the
smesher); applying them in that order yields the store `UpdateSmesher` yields, and fails
exactly when it fails. Likewise the model of `SaveSmesherQuery` is the write `SaveSmesher`
issues on `smeshers`, and applying it yields the store `SaveSmesher` yields. -/
theorem batched_equals_non_batched (s : Store) (smesher coinbase : String)
    (space timestamp : Nat) (inp : Smesher) :
    ((UpdateSmesher s smesher coinbase space timestamp).2.1 =
        match applyModel "smesherId" s.coinbases
          (UpdateSmesherQuery s smesher coinbase space timestamp).1 with
        | .ok _ =>
          [WriteCall.ofModel "coinbases"
              (UpdateSmesherQuery s smesher coinbase space timestamp).1,
            WriteCall.ofModel "smeshers"
              (UpdateSmesherQuery s smesher coinbase space timestamp).2]
        | .error _ =>
          [WriteCall.ofModel "coinbases"
              (UpdateSmesherQuery s smesher coinbase space timestamp).1]) ∧
      (UpdateSmesherQuery s smesher coinbase space timestamp).1.Upsert = some true ∧
      (UpdateSmesherQuery s smesher coinbase space timestamp).2.Upsert = none ∧
      (UpdateSmesher s smesher coinbase space timestamp).1 =
        (applyInOrder s (UpdateSmesherQuery s smesher coinbase space timestamp)).1 ∧
      ((UpdateSmesher s smesher coinbase space timestamp).2.2 = none ↔
        (applyInOrder s (UpdateSmesherQuery s smesher coinbase space timestamp)).2 = true) ∧
      (SaveSmesher s inp).2.1 = [WriteCall.ofModel "smeshers" (SaveSmesherQuery inp)] ∧
      (SaveSmesher s inp).1 =
        (match applyModel "id" s.smeshers (SaveSmesherQuery inp) with
        | .ok c => { s with smeshers := c }
        | .error _ => s) ∧
      ((SaveSmesher s inp).2.2 = none ↔
        ∃ c, applyModel "id" s.smeshers (SaveSmesherQuery inp) = .ok c) := by
  refine ⟨?_, rfl, rfl, ?_, ?_, ?_, ?_, ?_⟩
  · simp only [UpdateSmesher, UpdateSmesherQuery, applyModel, WriteCall.ofModel]
    cases UpdateOne "smesherId" s.coinbases [("smesherId", .str smesher)]
        [("coinbase", .str coinbase)] (some true) with
    | error e => rfl
    | ok cb =>
      simp only []
      split <;> rfl
  · simp only [UpdateSmesher, UpdateSmesherQuery, applyModel, applyInOrder]
    cases UpdateOne "smesherId" s.coinbases [("smesherId", .str smesher)]
        [("coinbase", .str coinbase)] (some true) with
    | error e => rfl
    | ok cb =>
      simp only []
      split <;> rfl
  · simp only [UpdateSmesher, UpdateSmesherQuery, applyModel, applyInOrder]
    cases UpdateOne "smesherId" s.coinbases [("smesherId", .str smesher)]
        [("coinbase", .str coinbase)] (some true) with
    | error e => simp
    | ok cb =>
      simp only []
      split <;> simp
  · simp only [SaveSmesher, SaveSmesherQuery, WriteCall.ofModel]
    split <;> rfl
  · cases hU : UpdateOne "id" s.smeshers [("id", .str inp.Id)] (saveSmesherSet inp)
        (some true) <;>
      simp [SaveSmesher, SaveSmesherQuery, applyModel, hU]
  · cases hU : UpdateOne "id" s.smeshers [("id", .str inp.Id)] (saveSmesherSet inp)
        (some true) <;>
      simp [SaveSmesher, SaveSmesherQuery, applyModel, hU]

end Storage
